import Mathlib

/-!
Verification of the go-scrub scrubbing utility.

The repository contains several self-contained generations of the same
scrubbing idea:
 * generation 1 (file `part_000`): `Scrub(input, fieldsToScrub)` masks the
   string fields of the struct in place with `"********"`, serializes, and then
   restores the original values from an order-matched saved-value list
   (mutate + restore strategy);
 * generation 2 (second segment of `scrub.go`): clone + mutate, policies are
   `map[string]map[string]string` holding a `"symbol"` entry;
 * generation 3 (first segment of `scrub.go`): clone + mutate, policies are
   `map[string]FieldScrubOptioner` supporting partial masking and
   `map[string]interface{}` values.

Strings of the Go program are modelled as `List Char` (`Str`): Go slices
strings by byte positions, Lean strings by characters; all reasoning here is
about positions and lengths, where the two coincide.  Go `int` configuration
values are modelled as `Int`; value lengths (`reflect.Value.Len()`) are `Nat`.
Go panics (out-of-range slicing, `strings.Repeat` with a negative count,
indexing an empty slice) are modelled by `Option`, with `none` for a panic.
The process-wide `MaskLenVary` flag is passed as an explicit `vary : Bool`
parameter; it is only read during a call.
-/

namespace GoScrub

/-- A Go string, viewed as its list of positions. -/
abbrev Str := List Char

/-- `strings.ToLower`: lowercase every character (executable form of
`String.toLower`, mapping `Char.toLower` over the characters). -/
def goToLower (s : String) : String := String.mk (s.data.map Char.toLower)

/-- The dynamic values the recursive walker can encounter, mirroring the
`reflect.Kind` case analysis of `scrubInternal`:
strings, structs (with per-field exported flag: unexported fields fail the
`CanAddr`/`CanInterface` checks), arrays/slices, pointers,
`map[string]interface{}` (the only map shape whose entries have
interface-typed, dynamically inspected values; its values are the shapes a
JSON decode into `interface{}` produces), any other map type (entries have a
non-interface static type and are skipped by `scrubInternalMap`), and every
other scalar kind. -/
inductive Value where
  | vstr (s : Str)
  | vother
  | vstruct (fields : List (String × Bool × Value))
  | vseq (elems : List Value)
  | vmapDyn (entries : List (String × Value))
  | vmapTyped (entries : List (String × Value))
  | vptr (p : Option Value)
deriving Repr

namespace Gen1

/-- Generation 1 `fieldsToScrub : map[string]bool`.  The source only tests
key presence (`_, ok := fieldsToScrub[...]`), never the stored bool. -/
abbrev Policy1 := List (String × Bool)

/-- The fixed replacement written by generation 1: `"********"`. -/
def mask8 : Str := "********".data

/-- The string-masking arm of the generation-1 mask walk: a nonempty string
whose lowercased field name is a key of `fieldsToScrub` is replaced by
`"********"` and its original value pushed; otherwise it is untouched. -/
def maskString (s : Str) (name : String) (f : Policy1) : Value × List Str :=
  if name ≠ "" ∧ (f.lookup (goToLower name)).isSome ∧ s ≠ [] then (Value.vstr mask8, [s])
  else (Value.vstr s, [])

/-- The string-restoring arm of the generation-1 restore walk: under the same
condition (re-evaluated on the current, masked value) the string is replaced
by `(*savedValues)[0]`, which is dropped from the saved list; an empty saved
list models the index-out-of-range panic. -/
def unmaskString (s : Str) (name : String) (f : Policy1) (saved : List Str) :
    Option (Value × List Str) :=
  if name ≠ "" ∧ (f.lookup (goToLower name)).isSome ∧ s ≠ [] then
    match saved with
    | [] => none
    | x :: rest => some (Value.vstr x, rest)
  else some (Value.vstr s, saved)

mutual

/-- Models `scrubInternal(target, fieldName, fieldsToScrub, savedValues, true)`
from `part_000`, where `target` is a pointer to `v`: the walker dereferences
the pointer argument, then (at most once) an inner pointer field, and recurses.
Returns the updated value together with the strings appended to `savedValues`,
in traversal order. -/
def scrubMask (v : Value) (name : String) (f : Policy1) : Value × List Str :=
  match v with
  | Value.vptr (some u) =>
      let r := scrubMaskCore u name f
      (Value.vptr (some r.1), r.2)
  | v => scrubMaskCore v name f

/-- The body of the generation-1 mask walk after the single pointer
dereference: structs recurse per exported field under the field's name,
sequences recurse per element under the same name, a nonempty string whose
(lowercased) field name is a key of `fieldsToScrub` is saved and replaced by
`"********"`; everything else (including maps, which generation 1 does not
handle, and nil or doubly-indirect pointers) is left untouched. -/
def scrubMaskCore (v : Value) (name : String) (f : Policy1) : Value × List Str :=
  match v with
  | Value.vstruct fs =>
      let r := scrubMaskFields fs f
      (Value.vstruct r.1, r.2)
  | Value.vseq es =>
      let r := scrubMaskElems es name f
      (Value.vseq r.1, r.2)
  | Value.vstr s => maskString s name f
  | v => (v, [])

/-- Struct loop of the generation-1 mask walk (unexported fields are
skipped because `fValue.Addr().CanInterface()` fails for them). -/
def scrubMaskFields (fs : List (String × Bool × Value)) (f : Policy1) :
    List (String × Bool × Value) × List Str :=
  match fs with
  | [] => ([], [])
  | (n, ex, v) :: rest =>
      let hd := if ex then
          let r := scrubMask v n f
          ((n, ex, r.1), r.2)
        else ((n, ex, v), [])
      let tl := scrubMaskFields rest f
      (hd.1 :: tl.1, hd.2 ++ tl.2)

/-- Array/slice loop of the generation-1 mask walk: every element is visited
under the field name of the sequence itself. -/
def scrubMaskElems (es : List Value) (name : String) (f : Policy1) :
    List Value × List Str :=
  match es with
  | [] => ([], [])
  | v :: rest =>
      let r := scrubMask v name f
      let tl := scrubMaskElems rest name f
      (r.1 :: tl.1, r.2 ++ tl.2)

end

mutual

/-- Models `scrubInternal(target, fieldName, fieldsToScrub, savedValues, false)`
from `part_000`: the restore pass.  Consumes `savedValues` from the front in
traversal order; `none` models the index-out-of-range panic of
`(*savedValues)[0]` on an empty saved list. -/
def scrubUnmask (v : Value) (name : String) (f : Policy1) (saved : List Str) :
    Option (Value × List Str) :=
  match v with
  | Value.vptr (some u) =>
      match scrubUnmaskCore u name f saved with
      | none => none
      | some r => some (Value.vptr (some r.1), r.2)
  | v => scrubUnmaskCore v name f saved

/-- Body of the restore pass after the single pointer dereference.  The
restore condition re-evaluates `CanSet && Kind == String && !IsZero()` on the
current (masked) value. -/
def scrubUnmaskCore (v : Value) (name : String) (f : Policy1) (saved : List Str) :
    Option (Value × List Str) :=
  match v with
  | Value.vstruct fs =>
      match scrubUnmaskFields fs f saved with
      | none => none
      | some r => some (Value.vstruct r.1, r.2)
  | Value.vseq es =>
      match scrubUnmaskElems es name f saved with
      | none => none
      | some r => some (Value.vseq r.1, r.2)
  | Value.vstr s => unmaskString s name f saved
  | v => some (v, saved)

/-- Struct loop of the restore pass. -/
def scrubUnmaskFields (fs : List (String × Bool × Value)) (f : Policy1)
    (saved : List Str) : Option (List (String × Bool × Value) × List Str) :=
  match fs with
  | [] => some ([], saved)
  | (n, ex, v) :: rest =>
      match (if ex then scrubUnmask v n f saved else some (v, saved)) with
      | none => none
      | some (v2, s1) =>
        match scrubUnmaskFields rest f s1 with
        | none => none
        | some (rest2, s2) => some ((n, ex, v2) :: rest2, s2)

/-- Array/slice loop of the restore pass. -/
def scrubUnmaskElems (es : List Value) (name : String) (f : Policy1)
    (saved : List Str) : Option (List Value × List Str) :=
  match es with
  | [] => some ([], saved)
  | v :: rest =>
      match scrubUnmask v name f saved with
      | none => none
      | some (v2, s1) =>
        match scrubUnmaskElems rest name f s1 with
        | none => none
        | some (rest2, s2) => some (v2 :: rest2, s2)

end

mutual

/-- Restoring right after masking, with the saved values produced by the mask
pass (followed by anything at all), rebuilds the original value and consumes
exactly the pushed values. -/
theorem unmask_mask (v : Value) (name : String) (f : Policy1) (rest : List Str) :
    scrubUnmask (scrubMask v name f).1 name f ((scrubMask v name f).2 ++ rest) =
      some (v, rest) := by
  cases v with
  | vptr p =>
    cases p with
    | some u =>
      have h := unmask_mask_core u name f rest
      simp [scrubMask, scrubUnmask, h]
    | none => simp [scrubMask, scrubUnmask, scrubMaskCore, scrubUnmaskCore]
  | vstr s =>
    by_cases h : name ≠ "" ∧ (f.lookup (goToLower name)).isSome ∧ s ≠ []
    · have hm : mask8 ≠ ([] : Str) := by simp [mask8]
      simp only [scrubMask, scrubMaskCore, maskString]
      rw [if_pos h]
      simp only [List.singleton_append, scrubUnmask, scrubUnmaskCore, unmaskString]
      rw [if_pos ⟨h.1, h.2.1, hm⟩]
    · simp only [scrubMask, scrubMaskCore, maskString]
      rw [if_neg h]
      simp only [List.nil_append, scrubUnmask, scrubUnmaskCore, unmaskString]
      rw [if_neg h]
  | vother =>
    simp [scrubMask, scrubMaskCore, scrubUnmask, scrubUnmaskCore]
  | vstruct fs =>
    have h := unmask_mask_fields fs f rest
    simp [scrubMask, scrubMaskCore, scrubUnmask, scrubUnmaskCore, h]
  | vseq es =>
    have h := unmask_mask_elems es name f rest
    simp [scrubMask, scrubMaskCore, scrubUnmask, scrubUnmaskCore, h]
  | vmapDyn es =>
    simp [scrubMask, scrubMaskCore, scrubUnmask, scrubUnmaskCore]
  | vmapTyped es =>
    simp [scrubMask, scrubMaskCore, scrubUnmask, scrubUnmaskCore]

/-- Roundtrip for the dereferenced body. -/
theorem unmask_mask_core (v : Value) (name : String) (f : Policy1) (rest : List Str) :
    scrubUnmaskCore (scrubMaskCore v name f).1 name f
        ((scrubMaskCore v name f).2 ++ rest) = some (v, rest) := by
  cases v with
  | vstruct fs =>
    have h := unmask_mask_fields fs f rest
    simp [scrubMaskCore, scrubUnmaskCore, h]
  | vseq es =>
    have h := unmask_mask_elems es name f rest
    simp [scrubMaskCore, scrubUnmaskCore, h]
  | vstr s =>
    by_cases h : name ≠ "" ∧ (f.lookup (goToLower name)).isSome ∧ s ≠ []
    · have hm : mask8 ≠ ([] : Str) := by simp [mask8]
      simp only [scrubMaskCore, maskString]
      rw [if_pos h]
      simp only [List.singleton_append, scrubUnmaskCore, unmaskString]
      rw [if_pos ⟨h.1, h.2.1, hm⟩]
    · simp only [scrubMaskCore, maskString]
      rw [if_neg h]
      simp only [List.nil_append, scrubUnmaskCore, unmaskString]
      rw [if_neg h]
  | vother => simp [scrubMaskCore, scrubUnmaskCore]
  | vmapDyn es => simp [scrubMaskCore, scrubUnmaskCore]
  | vmapTyped es => simp [scrubMaskCore, scrubUnmaskCore]
  | vptr p => simp [scrubMaskCore, scrubUnmaskCore]

/-- Roundtrip for the struct-field loop. -/
theorem unmask_mask_fields (fs : List (String × Bool × Value)) (f : Policy1)
    (rest : List Str) :
    scrubUnmaskFields (scrubMaskFields fs f).1 f
        ((scrubMaskFields fs f).2 ++ rest) = some (fs, rest) := by
  cases fs with
  | nil => simp [scrubMaskFields, scrubUnmaskFields]
  | cons hd tl =>
    obtain ⟨n, ex, v⟩ := hd
    cases ex with
    | true =>
      have h1 := unmask_mask v n f ((scrubMaskFields tl f).2 ++ rest)
      have h2 := unmask_mask_fields tl f rest
      simp [scrubMaskFields, scrubUnmaskFields, List.append_assoc, h1, h2]
    | false =>
      have h2 := unmask_mask_fields tl f rest
      simp [scrubMaskFields, scrubUnmaskFields, h2]

/-- Roundtrip for the array/slice loop. -/
theorem unmask_mask_elems (es : List Value) (name : String) (f : Policy1)
    (rest : List Str) :
    scrubUnmaskElems (scrubMaskElems es name f).1 name f
        ((scrubMaskElems es name f).2 ++ rest) = some (es, rest) := by
  cases es with
  | nil => simp [scrubMaskElems, scrubUnmaskElems]
  | cons v tl =>
    have h1 := unmask_mask v name f ((scrubMaskElems tl name f).2 ++ rest)
    have h2 := unmask_mask_elems tl name f rest
    simp [scrubMaskElems, scrubUnmaskElems, List.append_assoc, h1, h2]

end

/-- A generation-1 `Scrub` argument as seen through `interface{}`: either a
non-pointer dynamic value (which `scrubInternal` refuses to touch, since
`reflect.ValueOf(target).Kind() != reflect.Ptr`) or a pointer, possibly nil. -/
inductive GoArg where
  | nonPtr (v : Value)
  | gptr (p : Option Value)
deriving Repr

/-- Generation 1 `DefaultToScrub = map[string]bool{"password": true}`. -/
def DefaultToScrub : Policy1 := [("password", true)]

/-- One mask pass of `scrubInternal(input, "", fieldsToScrub, &savedValues, true)`
on the raw `interface{}` argument: a non-pointer argument is returned
untouched (the walker returns immediately), a nil pointer is untouched,
and a pointer walks its pointee. -/
def scrubPassMask (a : GoArg) (f : Policy1) : GoArg × List Str :=
  match a with
  | GoArg.gptr (some v) =>
      let r := scrubMask v "" f
      (GoArg.gptr (some r.1), r.2)
  | a => (a, [])

/-- One restore pass of `scrubInternal(input, "", fieldsToScrub, &savedValues, false)`
on the raw `interface{}` argument. -/
def scrubPassUnmask (a : GoArg) (f : Policy1) (saved : List Str) :
    Option (GoArg × List Str) :=
  match a with
  | GoArg.gptr (some v) =>
      match scrubUnmask v "" f saved with
      | none => none
      | some r => some (GoArg.gptr (some r.1), r.2)
  | a => some (a, saved)

/-- The observable output of generation-1 `Scrub`: either the literal
`"null"` returned for a nil input, or the JSON serialization of the argument
in the state it has at the `json.Marshal(input)` call (the serializer itself
is an external collaborator, so the output is abstracted by that state). -/
inductive Gen1Output where
  | nullOut
  | marshalled (a : GoArg)
deriving Repr

/-- Models generation-1
`Scrub(input interface{}, fieldsToScrub map[string]bool) string` from
`part_000`: nil input returns `"null"`; otherwise mask in place (with the
default field set when `fieldsToScrub` is nil), marshal, then restore from the
saved values.  Returns the output together with the final state of `input`;
`none` models a panic of the restore pass. -/
def Scrub (input : Option GoArg) (fieldsToScrub : Option Policy1) :
    Option (Gen1Output × Option GoArg) :=
  match input with
  | none => some (Gen1Output.nullOut, none)
  | some a =>
    let f := fieldsToScrub.getD DefaultToScrub
    let m := scrubPassMask a f
    match scrubPassUnmask m.1 f m.2 with
    | none => none
    | some r => some (Gen1Output.marshalled m.1, some r.1)

end Gen1

namespace Gen3

/-- `defaultMaskLen int = 8`. -/
def defaultMaskLen : Nat := 8

/-- `defaultMaskSymbol string = "*"`. -/
def defaultMaskSymbol : Str := "*".data

/-- `JSONScrub DataType = "json"` (a `DataType` is a string). -/
def JSONScrub : String := "json"

/-- `XMLScrub DataType = "xml"`. -/
def XMLScrub : String := "xml"

/-- The result of `"null"` returned for nil-like inputs in JSON mode. -/
def nullStr : Str := "null".data

/-- A `FieldScrubOptioner` implementation, represented by the results of its
seven methods (the engine only ever consumes it through these). -/
structure FieldScrubOpts where
  GetMaskingSymbol : Str
  PartMaskEnabled : Bool
  PartMaskMinFldLen : Int
  PartMaskMaxFldLen : Int
  PartMaskVisibleFrontLen : Int
  PartMaskVisibleBackOnlyIfFldLenGreaterThan : Int
  PartMaskVisibleBackLen : Int
deriving Repr, DecidableEq

/-- `fieldsToScrub map[string]FieldScrubOptioner`: an entry may hold a nil
interface (`opts != nil` is checked separately from key presence). -/
abbrev Policy := List (String × Option FieldScrubOpts)

/-- `defaultToScrub = map[string]FieldScrubOptioner{"password": &defaultFieldScrubOpts{}}`
where the default options answer `"*"`, disabled partial masking and zeros. -/
def defaultFieldScrubOpts : FieldScrubOpts := ⟨"*".data, false, 0, 0, 0, 0, 0⟩

/-- The default policy map. -/
def defaultToScrub : Policy := [("password", some defaultFieldScrubOpts)]

/-- Go slicing `v[0:n]`: panics (`none`) unless `0 ≤ n ≤ len(v)`. -/
def goSliceTo (v : Str) (n : Int) : Option Str :=
  if 0 ≤ n ∧ n ≤ (v.length : Int) then some (v.take n.toNat) else none

/-- Go slicing `v[n:]`: panics (`none`) unless `0 ≤ n ≤ len(v)`. -/
def goSliceFrom (v : Str) (n : Int) : Option Str :=
  if 0 ≤ n ∧ n ≤ (v.length : Int) then some (v.drop n.toNat) else none

/-- `strings.Repeat(sym, n)` with an `int` count: panics (`none`) when
`n < 0`, otherwise concatenates `n` copies of `sym`. -/
def goRepeat (sym : Str) (n : Int) : Option Str :=
  if 0 ≤ n then some ((List.replicate n.toNat sym).flatten) else none

/-- `maskLen(targetValueLen)`: the full-mask repetition count, reading the
process-wide `MaskLenVary` flag (passed here as `vary`). -/
def maskLen (vary : Bool) (targetValueLen : Nat) : Nat :=
  if vary then targetValueLen else defaultMaskLen

/-- `applyFullMask(symbol, maskLen)`: `strings.Repeat(symbol, maskLen)`.
The count is a `Nat` because both `maskLen` results are nonnegative. -/
def applyFullMask (symbol : Str) (n : Nat) : Str :=
  (List.replicate n symbol).flatten

/-- `applyPartBackMask(value, symbol, visibleFrontLen)`:
`value[0:visibleFrontLen] + strings.Repeat(symbol, len(value)-visibleFrontLen)`,
with `none` for the panics of slicing or a negative repeat count. -/
def applyPartBackMask (value symbol : Str) (visibleFrontLen : Int) : Option Str :=
  match goSliceTo value visibleFrontLen with
  | none => none
  | some visibleFront =>
    match goRepeat symbol ((value.length : Int) - visibleFrontLen) with
    | none => none
    | some maskedBack => some (visibleFront ++ maskedBack)

/-- `applyPartMiddleMask(value, symbol, visibleFrontLen, visibleBackLen)`:
`value[0:front] + strings.Repeat(symbol, (len-front)-back) + value[len-back:]`,
with `none` for the panics. -/
def applyPartMiddleMask (value symbol : Str) (visibleFrontLen visibleBackLen : Int) :
    Option Str :=
  match goSliceTo value visibleFrontLen with
  | none => none
  | some visibleFront =>
    match goSliceFrom value ((value.length : Int) - visibleBackLen) with
    | none => none
    | some visibleBack =>
      match goRepeat symbol
          (((value.length : Int) - visibleFrontLen) - visibleBackLen) with
      | none => none
      | some maskedMiddle => some (visibleFront ++ maskedMiddle ++ visibleBack)

/-- `doMasking(targetValue, fieldName, fieldsToScrub, checkCanSet)`.
`canSet` models `targetValue.CanSet()`.  Returns `none` for a panic inside a
partial mask, otherwise `some (mask, ok)` as in the source: `("", false)` when
the field is not masked, `(mask, true)` when it is. -/
def doMasking (targetValue : Value) (canSet : Bool) (fieldName : String)
    (fieldsToScrub : Policy) (checkCanSet : Bool) (vary : Bool) :
    Option (Str × Bool) :=
  match fieldsToScrub.lookup (goToLower fieldName) with
  | none => some ([], false)
  | some opts =>
    if checkCanSet ∧ canSet = false then some ([], false)
    else
      match targetValue with
      | Value.vstr s =>
        if s ≠ [] then
          let symbol : Str :=
            match opts with
            | some o =>
              if o.GetMaskingSymbol.length = 1 then o.GetMaskingSymbol
              else defaultMaskSymbol
            | none => defaultMaskSymbol
          match opts with
          | some o =>
            if o.PartMaskEnabled then
              if (s.length : Int) < o.PartMaskMinFldLen then
                some (applyFullMask symbol (maskLen vary s.length), true)
              else if (s.length : Int) > o.PartMaskMaxFldLen then
                some (applyFullMask symbol (maskLen vary s.length), true)
              else if (s.length : Int) < o.PartMaskVisibleBackOnlyIfFldLenGreaterThan then
                (applyPartBackMask s symbol o.PartMaskVisibleFrontLen).map
                  (fun m => (m, true))
              else if (s.length : Int) ≤ o.PartMaskMaxFldLen then
                (applyPartMiddleMask s symbol o.PartMaskVisibleFrontLen
                  o.PartMaskVisibleBackLen).map (fun m => (m, true))
              else some (applyFullMask symbol (maskLen vary s.length), true)
            else some (applyFullMask symbol (maskLen vary s.length), true)
          | none => some (applyFullMask symbol (maskLen vary s.length), true)
        else some ([], false)
      | _ => some ([], false)

/-- `invalidInput(cloning, target)` operand: an `interface{}` argument is
either nil or a (possibly zero-valued) dynamic value. -/
inductive GoIface where
  | gnil
  | gval (isZeroVal : Bool) (v : Value)
deriving Repr

/-- `invalidInput`: nil or zero-valued cloning or target. -/
def invalidInput (cloning target : GoIface) : Bool :=
  match cloning, target with
  | GoIface.gnil, _ => true
  | _, GoIface.gnil => true
  | GoIface.gval zc _, GoIface.gval zt _ => zc || zt

mutual

/-- Models generation-3 `scrubInternal(target, fieldName, fieldsToScrub)`
where `target` is a pointer to `v`.  `none` models a panic escaping from a
partial mask. -/
def scrubInternal (v : Value) (name : String) (f : Policy) (vary : Bool) :
    Option Value :=
  match v with
  | Value.vptr (some u) =>
      match scrubCore u name f vary with
      | none => none
      | some r => some (Value.vptr (some r))
  | v => scrubCore v name f vary

/-- Body of generation-3 `scrubInternal` after the single pointer
dereference: structs and sequences recurse, maps go to `scrubInternalMap`,
and a remaining scalar reached under a nonempty field name is handed to
`doMasking` with `checkCanSet = true` (such values are settable, having been
reached through `Addr().Interface()`). -/
def scrubCore (v : Value) (name : String) (f : Policy) (vary : Bool) :
    Option Value :=
  match v with
  | Value.vstruct fs =>
      match scrubFields fs f vary with
      | none => none
      | some r => some (Value.vstruct r)
  | Value.vseq es =>
      match scrubElems es name f vary with
      | none => none
      | some r => some (Value.vseq r)
  | Value.vmapDyn es => scrubInternalMap (Value.vmapDyn es) f vary
  | Value.vmapTyped es => scrubInternalMap (Value.vmapTyped es) f vary
  | Value.vstr s =>
      if name = "" then some (Value.vstr s)
      else
        match doMasking (Value.vstr s) true name f true vary with
        | none => none
        | some (m, true) => some (Value.vstr m)
        | some (_, false) => some (Value.vstr s)
  | v => some v

/-- Struct loop of generation-3 `scrubInternal`. -/
def scrubFields (fs : List (String × Bool × Value)) (f : Policy) (vary : Bool) :
    Option (List (String × Bool × Value)) :=
  match fs with
  | [] => some []
  | (n, ex, v) :: rest =>
      match (if ex then scrubInternal v n f vary else some v) with
      | none => none
      | some v2 =>
        match scrubFields rest f vary with
        | none => none
        | some rest2 => some ((n, ex, v2) :: rest2)

/-- Array/slice loop of generation-3 `scrubInternal`. -/
def scrubElems (es : List Value) (name : String) (f : Policy) (vary : Bool) :
    Option (List Value) :=
  match es with
  | [] => some []
  | v :: rest =>
      match scrubInternal v name f vary with
      | none => none
      | some v2 =>
        match scrubElems rest name f vary with
        | none => none
        | some rest2 => some (v2 :: rest2)

/-- `scrubInternalMap(targetMap, fieldsToScrub)`: only entries of interface
type are inspected (so any statically typed map — `Value.vmapTyped` — is left
untouched), and non-map arguments do not occur. -/
def scrubInternalMap (v : Value) (f : Policy) (vary : Bool) : Option Value :=
  match v with
  | Value.vmapDyn es =>
      match scrubMapEntries es f vary with
      | none => none
      | some r => some (Value.vmapDyn r)
  | v => some v

/-- Key loop of `scrubInternalMap` over a `map[string]interface{}`. -/
def scrubMapEntries (es : List (String × Value)) (f : Policy) (vary : Bool) :
    Option (List (String × Value)) :=
  match es with
  | [] => some []
  | (k, v) :: rest =>
      match scrubMapEntry k v f vary with
      | none => none
      | some v2 =>
        match scrubMapEntries rest f vary with
        | none => none
        | some rest2 => some ((k, v2) :: rest2)

/-- One entry of a `map[string]interface{}`: a string value is masked through
`doMasking(v.Elem(), k, fieldsToScrub, false)` (map values are not settable,
hence `checkCanSet = false`) and written back with `SetMapIndex` when `ok`;
a sequence value has its map elements recursed into; every other dynamic
value shape is left untouched. -/
def scrubMapEntry (k : String) (v : Value) (f : Policy) (vary : Bool) :
    Option Value :=
  match v with
  | Value.vstr s =>
      match doMasking (Value.vstr s) false k f false vary with
      | none => none
      | some (m, true) => some (Value.vstr m)
      | some (_, false) => some (Value.vstr s)
  | Value.vseq es =>
      match scrubSeqInMap es f vary with
      | none => none
      | some r => some (Value.vseq r)
  | v => some v

/-- Element loop over a sequence held in a `map[string]interface{}` entry:
elements of map kind go back to `scrubInternalMap`, others are skipped. -/
def scrubSeqInMap (es : List Value) (f : Policy) (vary : Bool) :
    Option (List Value) :=
  match es with
  | [] => some []
  | v :: rest =>
      match (match v with
             | Value.vmapDyn m => scrubInternalMap (Value.vmapDyn m) f vary
             | Value.vmapTyped m => scrubInternalMap (Value.vmapTyped m) f vary
             | v => some v) with
      | none => none
      | some v2 =>
        match scrubSeqInMap rest f vary with
        | none => none
        | some rest2 => some (v2 :: rest2)

end

/-- Models generation-3
`Scrub(cloning, target, fieldsToScrub map[string]FieldScrubOptioner, dataType)`.
The format codecs are external collaborators, passed as abstract
encode/decode functions (`none` = the codec returned an error; decoding takes
the bytes and the current clone value and yields the populated clone).
Returns the produced text (`none` = a panic escaped from the masking walk)
together with the final state of `target`, which the source only ever reads.
-/
def Scrub (jsonEnc : Value → Option Str) (jsonDec : Str → Value → Option Value)
    (xmlEnc : Value → Option Str) (xmlDec : Str → Value → Option Value)
    (cloning target : GoIface) (fieldsToScrub : Option Policy)
    (dataType : String) (vary : Bool) : Option Str × GoIface :=
  if invalidInput cloning target then
    (some (if dataType = JSONScrub then nullStr
           else if dataType = XMLScrub then []
           else nullStr), target)
  else
    match cloning, target with
    | GoIface.gval _ cv, GoIface.gval _ tv =>
      let step : Except Str Value :=
        if dataType = JSONScrub then
          match jsonEnc tv with
          | none => Except.error nullStr
          | some b =>
            match jsonDec b cv with
            | none => Except.error nullStr
            | some c => Except.ok c
        else if dataType = XMLScrub then
          match xmlEnc tv with
          | none => Except.error []
          | some b =>
            match xmlDec b cv with
            | none => Except.error []
            | some c => Except.ok c
        else Except.error nullStr
      match step with
      | Except.error s => (some s, target)
      | Except.ok clone1 =>
        let f := fieldsToScrub.getD defaultToScrub
        match scrubInternal clone1 "" f vary with
        | none => (none, target)
        | some clone2 =>
          if dataType = JSONScrub then
            (match jsonEnc clone2 with
             | none => some nullStr
             | some b => some b, target)
          else if dataType = XMLScrub then
            (match xmlEnc clone2 with
             | none => some []
             | some b => some b, target)
          else (some [], target)
    | _, _ => (none, target)

end Gen3

namespace Gen2

/-- Generation 2 `fieldsToScrub map[string]map[string]string`: per-field
string options, with the masking symbol under the `"symbol"` key. -/
abbrev Policy2 := List (String × List (String × Str))

/-- Generation 2 `DefaultMaskLen = 8`. -/
def DefaultMaskLen : Nat := 8

/-- The scalar masking step of generation-2 `scrubInternal` (second segment
of `scrub.go`, lines 781-804): if the lowercased field name is a key of
`fieldsToScrub` and the value is a settable, nonempty string, replace it by
the symbol (default `"*"`) repeated `len(value)` or `DefaultMaskLen` times
according to `MaskLenVary`; otherwise leave it untouched. -/
def scrubStringField (s : Str) (canSet : Bool) (fieldName : String)
    (fieldsToScrub : Policy2) (vary : Bool) : Str :=
  match fieldsToScrub.lookup (goToLower fieldName) with
  | none => s
  | some opts =>
    if canSet = true ∧ s ≠ [] then
      let symbol := (opts.lookup "symbol").getD "*".data
      if vary then (List.replicate s.length symbol).flatten
      else (List.replicate DefaultMaskLen symbol).flatten
    else s

end Gen2

/-! Spec-side definitions, written from the specification's words, to be
compared with the source-derived definitions above. -/

/-- The partial-masking branches named by the specification. -/
inductive MaskBranch where
  | fullMaskB
  | frontVisibleB
  | middleVisibleB
deriving Repr, DecidableEq

/-- Modelled from the spec (§4.2 decision order, claim C2): the branch chosen
for a matched string of length `len` when partial masking is enabled:
full if `len < minFieldLength`, else full if `len > maxFieldLength`, else
front-visible if `len < backVisibleThreshold`, else middle-visible if
`len ≤ maxFieldLength`, otherwise full. -/
def specMaskDecision (len : Nat) (minLen maxLen backThresh : Int) : MaskBranch :=
  if (len : Int) < minLen then MaskBranch.fullMaskB
  else if (len : Int) > maxLen then MaskBranch.fullMaskB
  else if (len : Int) < backThresh then MaskBranch.frontVisibleB
  else if (len : Int) ≤ maxLen then MaskBranch.middleVisibleB
  else MaskBranch.fullMaskB

/-- Modelled from the spec (§4.2 symbol resolution, claim C8): the symbol
actually used is the policy's configured symbol exactly when it is a single
character; a missing (nil-interface), empty or multi-character symbol falls
back to the default `"*"`. -/
def specResolvedSymbol (opts : Option Gen3.FieldScrubOpts) : Str :=
  match opts with
  | some o =>
    if o.GetMaskingSymbol.length = 1 then o.GetMaskingSymbol
    else Gen3.defaultMaskSymbol
  | none => Gen3.defaultMaskSymbol

/-! Helper lemmas. -/

theorem length_applyFullMask (sym : Str) (n : Nat) :
    (Gen3.applyFullMask sym n).length = n * sym.length := by
  simp [Gen3.applyFullMask, List.length_flatten, List.map_replicate,
    List.sum_replicate, smul_eq_mul]

theorem goSliceTo_eq_some {v w : Str} {n : Int} :
    Gen3.goSliceTo v n = some w ↔
      (0 ≤ n ∧ n ≤ (v.length : Int)) ∧ w = v.take n.toNat := by
  unfold Gen3.goSliceTo
  split_ifs with h <;> simp [h, eq_comm]

theorem goSliceFrom_eq_some {v w : Str} {n : Int} :
    Gen3.goSliceFrom v n = some w ↔
      (0 ≤ n ∧ n ≤ (v.length : Int)) ∧ w = v.drop n.toNat := by
  unfold Gen3.goSliceFrom
  split_ifs with h <;> simp [h, eq_comm]

theorem goRepeat_eq_some {sym w : Str} {n : Int} :
    Gen3.goRepeat sym n = some w ↔
      0 ≤ n ∧ w = (List.replicate n.toNat sym).flatten := by
  unfold Gen3.goRepeat
  split_ifs with h <;> simp [h, eq_comm]

/-! The claims. -/

/-- C1: after a Scrub call returns, the caller's original value is observably
unchanged.  In the mutate+restore generation (`Scrub(input, fieldsToScrub)`
of `part_000`) the restore pass, replaying the saved values in the same
traversal order, never panics and rebuilds the argument exactly, for every
argument and every field set; in the clone+mutate generation only the decoded
clone is mutated, so the target component of the call's final state is the
target as passed. -/
theorem claim1_scrub_nondestructive (inp : Option Gen1.GoArg)
    (fields : Option Gen1.Policy1)
    (je : Value → Option Str) (jd : Str → Value → Option Value)
    (xe : Value → Option Str) (xd : Str → Value → Option Value)
    (cl tg : Gen3.GoIface) (f3 : Option Gen3.Policy) (dt : String) (vary : Bool) :
    (Gen1.Scrub inp fields).map Prod.snd = some inp ∧
    (Gen3.Scrub je jd xe xd cl tg f3 dt vary).2 = tg := by
  constructor
  · cases inp with
    | none => simp [Gen1.Scrub]
    | some a =>
      cases a with
      | nonPtr v => simp [Gen1.Scrub, Gen1.scrubPassMask, Gen1.scrubPassUnmask]
      | gptr p =>
        cases p with
        | none => simp [Gen1.Scrub, Gen1.scrubPassMask, Gen1.scrubPassUnmask]
        | some v =>
          have h := Gen1.unmask_mask v "" (fields.getD Gen1.DefaultToScrub) []
          rw [List.append_nil] at h
          simp [Gen1.Scrub, Gen1.scrubPassMask, Gen1.scrubPassUnmask, h]
  · unfold Gen3.Scrub
    repeat' first
      | rfl
      | split
      | dsimp only

/-- C10: for a non-pointer input, the generation-1 walker returns immediately,
so `Scrub` serializes the original, unmasked value: the state marshalled is
the input itself, nothing is masked, and the call returns normally with the
input also left unchanged. -/
theorem claim10_nonpointer_input_unmasked (v : Value)
    (fields : Option Gen1.Policy1) :
    Gen1.Scrub (some (Gen1.GoArg.nonPtr v)) fields =
      some (Gen1.Gen1Output.marshalled (Gen1.GoArg.nonPtr v),
            some (Gen1.GoArg.nonPtr v)) := by
  simp [Gen1.Scrub, Gen1.scrubPassMask, Gen1.scrubPassUnmask]

/-- C5: a field whose name matches the policy but whose value is the empty
string is left untouched by every masking strategy and in every strategy
generation: the generation-1 mask and restore passes, the generation-3
`doMasking` (both through the struct walker and through the map walker), and
the generation-2 scalar step all keep an empty string empty. -/
theorem claim5_empty_string_never_masked (name : String) (f1 : Gen1.Policy1)
    (saved : List Str) (canSet checkCanSet vary : Bool) (f3 : Gen3.Policy)
    (f2 : Gen2.Policy2) :
    Gen1.scrubMask (Value.vstr []) name f1 = (Value.vstr [], []) ∧
    Gen1.scrubUnmask (Value.vstr []) name f1 saved = some (Value.vstr [], saved) ∧
    Gen3.doMasking (Value.vstr []) canSet name f3 checkCanSet vary =
      some ([], false) ∧
    Gen3.scrubInternal (Value.vstr []) name f3 vary = some (Value.vstr []) ∧
    Gen3.scrubMapEntry name (Value.vstr []) f3 vary = some (Value.vstr []) ∧
    Gen2.scrubStringField [] canSet name f2 vary = [] := by
  have hdo : ∀ cs ccs, Gen3.doMasking (Value.vstr []) cs name f3 ccs vary =
      some ([], false) := by
    intro cs ccs
    cases hl : f3.lookup (goToLower name) with
    | none => simp [Gen3.doMasking, hl]
    | some opts =>
      simp only [Gen3.doMasking, hl]
      split
      · rfl
      · simp
  refine ⟨?_, ?_, hdo canSet checkCanSet, ?_, ?_, ?_⟩
  · simp [Gen1.scrubMask, Gen1.scrubMaskCore, Gen1.maskString]
  · simp [Gen1.scrubUnmask, Gen1.scrubUnmaskCore, Gen1.unmaskString]
  · by_cases hn : name = ""
    · simp [Gen3.scrubInternal, Gen3.scrubCore, hn]
    · simp [Gen3.scrubInternal, Gen3.scrubCore, hn, hdo true true]
  · simp [Gen3.scrubMapEntry, hdo false false]
  · cases hl : f2.lookup (goToLower name) with
    | none => simp [Gen2.scrubStringField, hl]
    | some opts => simp [Gen2.scrubStringField, hl]

/-- C2: for a matched, nonempty string under a policy with partial masking
enabled (and not blocked by the `CanSet` check), `doMasking` follows exactly
the specification's decision order: full mask below the minimum length, full
mask above the maximum length, then front-visible below the back-visible
threshold, then middle-visible up to the maximum length, with a final full
mask fallback. -/
theorem claim2_masking_decision_order (s : Str) (fieldName : String)
    (f : Gen3.Policy) (o : Gen3.FieldScrubOpts) (canSet checkCanSet vary : Bool)
    (hl : f.lookup (goToLower fieldName) = some (some o))
    (hp : o.PartMaskEnabled = true)
    (hs : s ≠ [])
    (hcs : checkCanSet = false ∨ canSet = true) :
    Gen3.doMasking (Value.vstr s) canSet fieldName f checkCanSet vary =
      (match specMaskDecision s.length o.PartMaskMinFldLen o.PartMaskMaxFldLen
          o.PartMaskVisibleBackOnlyIfFldLenGreaterThan with
       | MaskBranch.fullMaskB =>
           some (Gen3.applyFullMask (specResolvedSymbol (some o))
             (Gen3.maskLen vary s.length), true)
       | MaskBranch.frontVisibleB =>
           (Gen3.applyPartBackMask s (specResolvedSymbol (some o))
             o.PartMaskVisibleFrontLen).map (fun m => (m, true))
       | MaskBranch.middleVisibleB =>
           (Gen3.applyPartMiddleMask s (specResolvedSymbol (some o))
             o.PartMaskVisibleFrontLen o.PartMaskVisibleBackLen).map
             (fun m => (m, true))) := by
  have hcs2 : ¬(checkCanSet = true ∧ canSet = false) := by
    rcases hcs with h | h <;> simp [h]
  simp only [Gen3.doMasking, hl]
  rw [if_neg hcs2, if_pos hs]
  try dsimp only
  rw [if_pos hp]
  unfold specMaskDecision specResolvedSymbol
  try dsimp only
  split_ifs <;> rfl

/-- The concrete partial-mask thresholds of the specification's boundary
scenario (claim C3): minimum length 10, maximum length 19, 6 visible front
characters, back-visibility threshold 16, 4 visible back characters, symbol
`"*"`. -/
def partBoundaryConf : Gen3.FieldScrubOpts := ⟨"*".data, true, 10, 19, 6, 16, 4⟩

/-- A policy matching the field name `"secret"` with `partBoundaryConf`. -/
def partBoundaryPolicy : Gen3.Policy := [("secret", some partBoundaryConf)]

/-- C3 counterexample: with the claimed thresholds (maximum length 19), a
matched string of length 20 receives a *full* mask of length 20 — not the
middle-visible mask keeping 6 front and 4 back characters that the claim
asserts for "length 20 exactly at max". -/
theorem claim3_counterexample :
    Gen3.doMasking (Value.vstr "abcdefghijklmnopqrst".data) true "secret"
        partBoundaryPolicy true true = some (List.replicate 20 '*', true) ∧
    List.replicate 20 '*' ≠
      "abcdef".data ++ List.replicate 10 '*' ++ "qrst".data := by
  constructor
  · decide
  · decide

/-- C3 (amended): with thresholds minimum 10, maximum 19, visible front 6,
back-visible threshold 16, visible back 4, and the variable-length flag
enabled (forced by the claimed output lengths), a matched string of length 9
receives a full mask of length 9; of length 15 a front-visible mask keeping
the first 6 characters followed by 9 symbols; of length 20 a full mask of
length 20; and of length 19 — the length exactly at the maximum — a
middle-visible mask keeping 6 front and 4 back characters. -/
theorem claim3_partial_mask_boundaries :
    Gen3.doMasking (Value.vstr "123456789".data) true "secret"
        partBoundaryPolicy true true = some (List.replicate 9 '*', true) ∧
    Gen3.doMasking (Value.vstr "123456789012345".data) true "secret"
        partBoundaryPolicy true true =
      some ("123456".data ++ List.replicate 9 '*', true) ∧
    Gen3.doMasking (Value.vstr "abcdefghijklmnopqrst".data) true "secret"
        partBoundaryPolicy true true = some (List.replicate 20 '*', true) ∧
    Gen3.doMasking (Value.vstr "1234567890123456789".data) true "secret"
        partBoundaryPolicy true true =
      some ("123456".data ++ List.replicate 9 '*' ++ "6789".data, true) := by
  refine ⟨by decide, by decide, by decide, by decide⟩

/-- C4: every full mask has the fixed default length 8 when the
variable-length flag is disabled and the original string's length when it is
enabled: as the generic length law of `applyFullMask` with `maskLen` (for a
single-character symbol), and through `doMasking` for every matched, nonempty
string whose policy does not enable partial masking. -/
theorem claim4_full_mask_length (sym : Str) (n : Nat) (s : Str)
    (fieldName : String) (f : Gen3.Policy) (opts : Option Gen3.FieldScrubOpts)
    (canSet checkCanSet vary : Bool) :
    (sym.length = 1 →
      (Gen3.applyFullMask sym (Gen3.maskLen vary n)).length =
        if vary then n else Gen3.defaultMaskLen) ∧
    (f.lookup (goToLower fieldName) = some opts → s ≠ [] →
      (∀ o, opts = some o → o.PartMaskEnabled = false) →
      (checkCanSet = false ∨ canSet = true) →
      ∃ m, Gen3.doMasking (Value.vstr s) canSet fieldName f checkCanSet vary =
          some (m, true) ∧
        m.length = if vary then s.length else Gen3.defaultMaskLen) := by
  constructor
  · intro h1
    rw [length_applyFullMask, h1, mul_one]
    unfold Gen3.maskLen
    split <;> rfl
  · intro hl hs hpart hcs
    have hcs2 : ¬(checkCanSet = true ∧ canSet = false) := by
      rcases hcs with h | h <;> simp [h]
    have hsym : ∀ o : Gen3.FieldScrubOpts,
        (if o.GetMaskingSymbol.length = 1 then o.GetMaskingSymbol
         else Gen3.defaultMaskSymbol).length = 1 := by
      intro o
      split_ifs with h <;> simp [h, Gen3.defaultMaskSymbol]
    have hlen : ∀ symbol : Str, symbol.length = 1 →
        (Gen3.applyFullMask symbol (Gen3.maskLen vary s.length)).length =
          if vary then s.length else Gen3.defaultMaskLen := by
      intro symbol h1
      rw [length_applyFullMask, h1, mul_one]
      unfold Gen3.maskLen
      split <;> rfl
    cases opts with
    | none =>
      refine ⟨Gen3.applyFullMask Gen3.defaultMaskSymbol
        (Gen3.maskLen vary s.length), ?_, ?_⟩
      · simp only [Gen3.doMasking, hl]
        rw [if_neg hcs2, if_pos hs]
      · exact hlen _ (by simp [Gen3.defaultMaskSymbol])
    | some o =>
      have hp := hpart o rfl
      refine ⟨Gen3.applyFullMask
        (if o.GetMaskingSymbol.length = 1 then o.GetMaskingSymbol
         else Gen3.defaultMaskSymbol) (Gen3.maskLen vary s.length), ?_, ?_⟩
      · simp only [Gen3.doMasking, hl]
        rw [if_neg hcs2, if_pos hs]
        try dsimp only
        rw [if_neg (by simp [hp])]
      · exact hlen _ (hsym o)

/-- C8: the symbol used by every masking of a matched string is the policy's
configured symbol exactly when that symbol is a single character, and the
default `"*"` when the policy entry is nil, or supplies an empty or
multi-character symbol — shown for the full-mask path (partial masking
disabled) and for the front-visible partial path, whose outputs are exactly
those computed with the spec-side resolved symbol. -/
theorem claim8_symbol_resolution (s : Str) (fieldName : String)
    (f : Gen3.Policy) (opts : Option Gen3.FieldScrubOpts)
    (o : Gen3.FieldScrubOpts) (canSet checkCanSet vary : Bool) :
    (f.lookup (goToLower fieldName) = some opts → s ≠ [] →
      (∀ o2, opts = some o2 → o2.PartMaskEnabled = false) →
      (checkCanSet = false ∨ canSet = true) →
      Gen3.doMasking (Value.vstr s) canSet fieldName f checkCanSet vary =
        some (Gen3.applyFullMask (specResolvedSymbol opts)
          (Gen3.maskLen vary s.length), true)) ∧
    (f.lookup (goToLower fieldName) = some (some o) → s ≠ [] →
      o.PartMaskEnabled = true →
      (checkCanSet = false ∨ canSet = true) →
      ¬((s.length : Int) < o.PartMaskMinFldLen) →
      ¬((s.length : Int) > o.PartMaskMaxFldLen) →
      (s.length : Int) < o.PartMaskVisibleBackOnlyIfFldLenGreaterThan →
      Gen3.doMasking (Value.vstr s) canSet fieldName f checkCanSet vary =
        (Gen3.applyPartBackMask s (specResolvedSymbol (some o))
          o.PartMaskVisibleFrontLen).map (fun m => (m, true))) := by
  constructor
  · intro hl hs hpart hcs
    have hcs2 : ¬(checkCanSet = true ∧ canSet = false) := by
      rcases hcs with h | h <;> simp [h]
    cases opts with
    | none =>
      simp only [Gen3.doMasking, hl]
      rw [if_neg hcs2, if_pos hs]
      rfl
    | some o2 =>
      have hp := hpart o2 rfl
      simp only [Gen3.doMasking, hl]
      rw [if_neg hcs2, if_pos hs]
      try dsimp only
      rw [if_neg (by simp [hp])]
      rfl
  · intro hl hs hp hcs h1 h2 h3
    have hcs2 : ¬(checkCanSet = true ∧ canSet = false) := by
      rcases hcs with h | h <;> simp [h]
    simp only [Gen3.doMasking, hl]
    rw [if_neg hcs2, if_pos hs]
    try dsimp only
    rw [if_pos hp, if_neg h1, if_neg h2, if_pos h3]
    rfl

/-- C6: in a `map[string]interface{}`, an entry whose value is a string is
masked using the key as the field name (the `doMasking` outcome, computed
with `checkCanSet = false`, decides, and an unmatched key leaves the entry
untouched); an entry whose value is a sequence has its keyed-map elements
recursed into one by one, other elements passing through; an entry of any
other shape is left untouched; and a statically typed map (such as
`map[string]string`) is left entirely untouched by `scrubInternalMap`. -/
theorem claim6_keyed_map_scrubbing (f : Gen3.Policy) (vary : Bool) (k : String)
    (s m : Str) (v : Value) (es : List Value) :
    (Gen3.doMasking (Value.vstr s) false k f false vary = some (m, true) →
      Gen3.scrubMapEntry k (Value.vstr s) f vary = some (Value.vstr m)) ∧
    (Gen3.doMasking (Value.vstr s) false k f false vary = some (m, false) →
      Gen3.scrubMapEntry k (Value.vstr s) f vary = some (Value.vstr s)) ∧
    (f.lookup (goToLower k) = none →
      Gen3.scrubMapEntry k (Value.vstr s) f vary = some (Value.vstr s)) ∧
    (Gen3.scrubMapEntry k (Value.vseq es) f vary =
      (Gen3.scrubSeqInMap es f vary).map Value.vseq) ∧
    (∀ entries, Gen3.scrubSeqInMap (Value.vmapDyn entries :: es) f vary =
      (Gen3.scrubMapEntries entries f vary).bind (fun r =>
        (Gen3.scrubSeqInMap es f vary).map (fun tl => Value.vmapDyn r :: tl))) ∧
    (∀ e, (∀ entries, e ≠ Value.vmapDyn entries) →
      (∀ entries, e ≠ Value.vmapTyped entries) →
      Gen3.scrubSeqInMap (e :: es) f vary =
        (Gen3.scrubSeqInMap es f vary).map (fun tl => e :: tl)) ∧
    (∀ entries, Gen3.scrubSeqInMap (Value.vmapTyped entries :: es) f vary =
      (Gen3.scrubSeqInMap es f vary).map (fun tl => Value.vmapTyped entries :: tl)) ∧
    ((∀ s2, v ≠ Value.vstr s2) → (∀ es2, v ≠ Value.vseq es2) →
      Gen3.scrubMapEntry k v f vary = some v) ∧
    (∀ tes, Gen3.scrubInternalMap (Value.vmapTyped tes) f vary =
      some (Value.vmapTyped tes)) := by
  refine ⟨?_, ?_, ?_, ?_, ?_, ?_, ?_, ?_, ?_⟩
  · intro h
    simp [Gen3.scrubMapEntry, h]
  · intro h
    simp [Gen3.scrubMapEntry, h]
  · intro h
    have hdm : Gen3.doMasking (Value.vstr s) false k f false vary =
        some ([], false) := by
      simp [Gen3.doMasking, h]
    simp [Gen3.scrubMapEntry, hdm]
  · cases h : Gen3.scrubSeqInMap es f vary <;>
      simp [Gen3.scrubMapEntry, h]
  · intro entries
    cases h : Gen3.scrubMapEntries entries f vary with
    | none => simp [Gen3.scrubSeqInMap, Gen3.scrubInternalMap, h]
    | some r =>
      cases h2 : Gen3.scrubSeqInMap es f vary <;>
        simp [Gen3.scrubSeqInMap, Gen3.scrubInternalMap, h, h2]
  · intro e hdyn htyped
    cases e with
    | vmapDyn entries => exact absurd rfl (hdyn entries)
    | vmapTyped entries => exact absurd rfl (htyped entries)
    | vstr s2 =>
      cases h2 : Gen3.scrubSeqInMap es f vary <;> simp [Gen3.scrubSeqInMap, h2]
    | vother =>
      cases h2 : Gen3.scrubSeqInMap es f vary <;> simp [Gen3.scrubSeqInMap, h2]
    | vstruct fs =>
      cases h2 : Gen3.scrubSeqInMap es f vary <;> simp [Gen3.scrubSeqInMap, h2]
    | vseq es2 =>
      cases h2 : Gen3.scrubSeqInMap es f vary <;> simp [Gen3.scrubSeqInMap, h2]
    | vptr p =>
      cases h2 : Gen3.scrubSeqInMap es f vary <;> simp [Gen3.scrubSeqInMap, h2]
  · intro entries
    cases h2 : Gen3.scrubSeqInMap es f vary <;>
      simp [Gen3.scrubSeqInMap, Gen3.scrubInternalMap, h2]
  · intro hstr hseq
    cases v with
    | vstr s2 => exact absurd rfl (hstr s2)
    | vseq es2 => exact absurd rfl (hseq es2)
    | vother => simp [Gen3.scrubMapEntry]
    | vstruct fs => simp [Gen3.scrubMapEntry]
    | vmapDyn entries => simp [Gen3.scrubMapEntry]
    | vmapTyped entries => simp [Gen3.scrubMapEntry]
    | vptr p => simp [Gen3.scrubMapEntry]
  · intro tes
    simp [Gen3.scrubInternalMap]

/-- C7: a clone+mutate `Scrub` call with a nil or zero-valued target or clone
receptacle, or whose codec fails to encode the target or to decode into the
clone, raises no error and returns the format's canonical empty
representation: `"null"` for JSON and `""` for XML. -/
theorem claim7_invalid_input_and_codec_failure
    (je : Value → Option Str) (jd : Str → Value → Option Value)
    (xe : Value → Option Str) (xd : Str → Value → Option Value)
    (cl tg : Gen3.GoIface) (f : Option Gen3.Policy) (vary : Bool)
    (cv tv : Value) (b : Str) :
    (Gen3.invalidInput cl tg = true →
      (Gen3.Scrub je jd xe xd cl tg f Gen3.JSONScrub vary).1 =
          some Gen3.nullStr ∧
      (Gen3.Scrub je jd xe xd cl tg f Gen3.XMLScrub vary).1 = some []) ∧
    (cl = Gen3.GoIface.gval false cv → tg = Gen3.GoIface.gval false tv →
      je tv = none →
      (Gen3.Scrub je jd xe xd cl tg f Gen3.JSONScrub vary).1 =
        some Gen3.nullStr) ∧
    (cl = Gen3.GoIface.gval false cv → tg = Gen3.GoIface.gval false tv →
      je tv = some b → jd b cv = none →
      (Gen3.Scrub je jd xe xd cl tg f Gen3.JSONScrub vary).1 =
        some Gen3.nullStr) ∧
    (cl = Gen3.GoIface.gval false cv → tg = Gen3.GoIface.gval false tv →
      xe tv = none →
      (Gen3.Scrub je jd xe xd cl tg f Gen3.XMLScrub vary).1 = some []) ∧
    (cl = Gen3.GoIface.gval false cv → tg = Gen3.GoIface.gval false tv →
      xe tv = some b → xd b cv = none →
      (Gen3.Scrub je jd xe xd cl tg f Gen3.XMLScrub vary).1 = some []) := by
  have hxmljson : Gen3.XMLScrub ≠ Gen3.JSONScrub := by decide
  refine ⟨?_, ?_, ?_, ?_, ?_⟩
  · intro h
    constructor
    · unfold Gen3.Scrub
      rw [if_pos h, if_pos rfl]
    · unfold Gen3.Scrub
      rw [if_pos h, if_neg hxmljson, if_pos rfl]
  · intro hcl htg hje
    subst hcl htg
    have hinv : ¬(Gen3.invalidInput (Gen3.GoIface.gval false cv)
        (Gen3.GoIface.gval false tv) = true) := by
      simp [Gen3.invalidInput]
    unfold Gen3.Scrub
    rw [if_neg hinv]
    simp [hje]
  · intro hcl htg hje hjd
    subst hcl htg
    have hinv : ¬(Gen3.invalidInput (Gen3.GoIface.gval false cv)
        (Gen3.GoIface.gval false tv) = true) := by
      simp [Gen3.invalidInput]
    unfold Gen3.Scrub
    rw [if_neg hinv]
    simp [hje, hjd]
  · intro hcl htg hxe
    subst hcl htg
    have hinv : ¬(Gen3.invalidInput (Gen3.GoIface.gval false cv)
        (Gen3.GoIface.gval false tv) = true) := by
      simp [Gen3.invalidInput]
    unfold Gen3.Scrub
    rw [if_neg hinv]
    simp [hxe, hxmljson]
  · intro hcl htg hxe hxd
    subst hcl htg
    have hinv : ¬(Gen3.invalidInput (Gen3.GoIface.gval false cv)
        (Gen3.GoIface.gval false tv) = true) := by
      simp [Gen3.invalidInput]
    unfold Gen3.Scrub
    rw [if_neg hinv]
    simp [hxe, hxd, hxmljson]

/-- C9 counterexample: the claim's stated precondition
`visibleFrontLength ≤ length(value)` is not sufficient for the front-visible
mask to return a string: at `visibleFrontLength = -1` (a Go `int` the
configuration admits) the slice `value[0:-1]` panics even though
`-1 ≤ length("abc")`, so "under the precondition both branches return a
string of exactly the original length" fails as stated. -/
theorem claim9_counterexample :
    Gen3.applyPartBackMask "abc".data "*".data (-1) = none ∧
    (-1 : Int) ≤ (("abc".data : Str).length : Int) ∧
    ("*".data : Str).length = 1 := by
  refine ⟨by decide, by decide, by decide⟩

/-- C9 (amended): the partial-masking string operations slice without bounds
checks, so they are total only under preconditions the spec never states:
the front-visible mask returns a string only if
`visibleFrontLength ≤ length(value)`, the middle-visible mask only if
`visibleFrontLength + visibleBackLength ≤ length(value)`; a configuration
violating these bounds makes the masking panic instead of returning a mask;
and under those bounds *strengthened with the nonnegativity of the visible
lengths* (also unstated in the spec, and necessary: see the counterexample)
both branches return a string of exactly the original length (for a
single-character symbol, as `doMasking` always resolves). -/
theorem claim9_partial_mask_totality (v sym : Str) (vfl vbl : Int)
    (hsym : sym.length = 1) :
    (∀ m, Gen3.applyPartBackMask v sym vfl = some m → vfl ≤ (v.length : Int)) ∧
    (∀ m, Gen3.applyPartMiddleMask v sym vfl vbl = some m →
      vfl + vbl ≤ (v.length : Int)) ∧
    ((v.length : Int) < vfl → Gen3.applyPartBackMask v sym vfl = none) ∧
    ((v.length : Int) < vfl + vbl →
      Gen3.applyPartMiddleMask v sym vfl vbl = none) ∧
    (0 ≤ vfl → vfl ≤ (v.length : Int) →
      ∃ m, Gen3.applyPartBackMask v sym vfl = some m ∧ m.length = v.length) ∧
    (0 ≤ vfl → 0 ≤ vbl → vfl + vbl ≤ (v.length : Int) →
      ∃ m, Gen3.applyPartMiddleMask v sym vfl vbl = some m ∧
        m.length = v.length) := by
  refine ⟨?_, ?_, ?_, ?_, ?_, ?_⟩
  · intro m h
    cases h1 : Gen3.goSliceTo v vfl with
    | none => simp [Gen3.applyPartBackMask, h1] at h
    | some a => exact (goSliceTo_eq_some.mp h1).1.2
  · intro m h
    cases h1 : Gen3.goSliceTo v vfl with
    | none => simp [Gen3.applyPartMiddleMask, h1] at h
    | some a =>
      cases h2 : Gen3.goSliceFrom v ((v.length : Int) - vbl) with
      | none => simp [Gen3.applyPartMiddleMask, h1, h2] at h
      | some b =>
        cases h3 : Gen3.goRepeat sym (((v.length : Int) - vfl) - vbl) with
        | none => simp [Gen3.applyPartMiddleMask, h1, h2, h3] at h
        | some c =>
          have := (goRepeat_eq_some.mp h3).1
          omega
  · intro hv
    have h1 : Gen3.goSliceTo v vfl = none := by
      unfold Gen3.goSliceTo
      rw [if_neg (by omega)]
    simp [Gen3.applyPartBackMask, h1]
  · intro hv
    cases h1 : Gen3.goSliceTo v vfl with
    | none => simp [Gen3.applyPartMiddleMask, h1]
    | some a =>
      cases h2 : Gen3.goSliceFrom v ((v.length : Int) - vbl) with
      | none => simp [Gen3.applyPartMiddleMask, h1, h2]
      | some b =>
        have h3 : Gen3.goRepeat sym (((v.length : Int) - vfl) - vbl) = none := by
          unfold Gen3.goRepeat
          rw [if_neg (by omega)]
        simp [Gen3.applyPartMiddleMask, h1, h2, h3]
  · intro h0 h1
    have hs : Gen3.goSliceTo v vfl = some (v.take vfl.toNat) := by
      rw [goSliceTo_eq_some]
      exact ⟨⟨h0, h1⟩, rfl⟩
    have hr : Gen3.goRepeat sym ((v.length : Int) - vfl) =
        some (List.replicate ((v.length : Int) - vfl).toNat sym).flatten := by
      rw [goRepeat_eq_some]
      exact ⟨by omega, rfl⟩
    refine ⟨v.take vfl.toNat ++
        (List.replicate ((v.length : Int) - vfl).toNat sym).flatten,
      by simp [Gen3.applyPartBackMask, hs, hr], ?_⟩
    have hflat : ((List.replicate ((v.length : Int) - vfl).toNat sym).flatten).length
        = ((v.length : Int) - vfl).toNat * sym.length := by
      simp [List.length_flatten, List.map_replicate, List.sum_replicate,
        smul_eq_mul]
    simp only [List.length_append, List.length_take, hflat, hsym, mul_one]
    omega
  · intro h0 h0b h1
    have hs : Gen3.goSliceTo v vfl = some (v.take vfl.toNat) := by
      rw [goSliceTo_eq_some]
      exact ⟨⟨h0, by omega⟩, rfl⟩
    have hb : Gen3.goSliceFrom v ((v.length : Int) - vbl) =
        some (v.drop ((v.length : Int) - vbl).toNat) := by
      rw [goSliceFrom_eq_some]
      exact ⟨⟨by omega, by omega⟩, rfl⟩
    have hr : Gen3.goRepeat sym (((v.length : Int) - vfl) - vbl) =
        some (List.replicate (((v.length : Int) - vfl) - vbl).toNat sym).flatten := by
      rw [goRepeat_eq_some]
      exact ⟨by omega, rfl⟩
    refine ⟨(v.take vfl.toNat ++
        (List.replicate (((v.length : Int) - vfl) - vbl).toNat sym).flatten) ++
        v.drop ((v.length : Int) - vbl).toNat,
      by simp [Gen3.applyPartMiddleMask, hs, hb, hr], ?_⟩
    have hflat : ((List.replicate (((v.length : Int) - vfl) - vbl).toNat
        sym).flatten).length = (((v.length : Int) - vfl) - vbl).toNat * sym.length := by
      simp [List.length_flatten, List.map_replicate, List.sum_replicate,
        smul_eq_mul]
    simp only [List.length_append, List.length_take, List.length_drop, hflat,
      hsym, mul_one]
    omega

/-! Witnesses: each hypothesis-bearing claim theorem applied at a concrete
input, with its hypotheses discharged there. -/

/-- Witness for C2 at a length-15 value under the boundary thresholds. -/
theorem claim2_masking_decision_order_witness :
    Gen3.doMasking (Value.vstr "123456789012345".data) true "secret"
        partBoundaryPolicy true true =
      (match specMaskDecision ("123456789012345".data : Str).length
          partBoundaryConf.PartMaskMinFldLen
          partBoundaryConf.PartMaskMaxFldLen
          partBoundaryConf.PartMaskVisibleBackOnlyIfFldLenGreaterThan with
       | MaskBranch.fullMaskB =>
           some (Gen3.applyFullMask (specResolvedSymbol (some partBoundaryConf))
             (Gen3.maskLen true ("123456789012345".data : Str).length), true)
       | MaskBranch.frontVisibleB =>
           (Gen3.applyPartBackMask "123456789012345".data
             (specResolvedSymbol (some partBoundaryConf))
             partBoundaryConf.PartMaskVisibleFrontLen).map (fun m => (m, true))
       | MaskBranch.middleVisibleB =>
           (Gen3.applyPartMiddleMask "123456789012345".data
             (specResolvedSymbol (some partBoundaryConf))
             partBoundaryConf.PartMaskVisibleFrontLen
             partBoundaryConf.PartMaskVisibleBackLen).map (fun m => (m, true))) :=
  claim2_masking_decision_order "123456789012345".data "secret"
    partBoundaryPolicy partBoundaryConf true true true (by decide) rfl
    (by decide) (Or.inr rfl)

/-- Witness for C4: fixed-length full mask of the default policy, reached
case-insensitively through the field name `"Password"`. -/
theorem claim4_full_mask_length_witness :
    (Gen3.applyFullMask "*".data (Gen3.maskLen false 5)).length =
      Gen3.defaultMaskLen ∧
    ∃ m, Gen3.doMasking (Value.vstr "abc".data) true "Password"
        Gen3.defaultToScrub true false = some (m, true) ∧
      m.length = Gen3.defaultMaskLen := by
  have h := claim4_full_mask_length "*".data 5 "abc".data "Password"
    Gen3.defaultToScrub (some Gen3.defaultFieldScrubOpts) true true false
  constructor
  · simpa using h.1 (by decide)
  · simpa using h.2 (by decide) (by decide)
      (fun o ho => by injection ho with h2; rw [← h2]; rfl) (Or.inr rfl)

/-- Witness for C6: a matched map key whose string value receives the
default full mask. -/
theorem claim6_keyed_map_scrubbing_witness :
    Gen3.scrubMapEntry "86" (Value.vstr "84240000083AB8700FAE0CB0DD".data)
        [("86", some Gen3.defaultFieldScrubOpts)] false =
      some (Value.vstr (List.replicate 8 '*')) :=
  (claim6_keyed_map_scrubbing [("86", some Gen3.defaultFieldScrubOpts)] false
    "86" "84240000083AB8700FAE0CB0DD".data (List.replicate 8 '*')
    Value.vother []).1 (by decide)

/-- Witness for C7: an always-failing JSON encoder yields `"null"`. -/
theorem claim7_invalid_input_and_codec_failure_witness :
    (Gen3.Scrub (fun _ => none) (fun _ _ => none) (fun _ => none)
      (fun _ _ => none) (Gen3.GoIface.gval false Value.vother)
      (Gen3.GoIface.gval false Value.vother) none Gen3.JSONScrub false).1 =
      some Gen3.nullStr :=
  (claim7_invalid_input_and_codec_failure (fun _ => none) (fun _ _ => none)
    (fun _ => none) (fun _ _ => none) (Gen3.GoIface.gval false Value.vother)
    (Gen3.GoIface.gval false Value.vother) none false Value.vother Value.vother
    []).2.1 rfl rfl rfl

/-- Witness for C8: the default policy's full mask uses the resolved
symbol. -/
theorem claim8_symbol_resolution_witness :
    Gen3.doMasking (Value.vstr "abc".data) true "password" Gen3.defaultToScrub
        true false =
      some (Gen3.applyFullMask
        (specResolvedSymbol (some Gen3.defaultFieldScrubOpts))
        (Gen3.maskLen false ("abc".data : Str).length), true) :=
  (claim8_symbol_resolution "abc".data "password" Gen3.defaultToScrub
    (some Gen3.defaultFieldScrubOpts) Gen3.defaultFieldScrubOpts true true
    false).1 (by decide) (by decide)
    (fun o2 ho => by injection ho with h2; rw [← h2]; rfl) (Or.inr rfl)

/-- Witness for C9 (amended): in-bounds nonnegative visible lengths produce
a front-visible mask of the original length. -/
theorem claim9_partial_mask_totality_witness :
    ∃ m, Gen3.applyPartBackMask "abcdef".data "*".data 2 = some m ∧
      m.length = ("abcdef".data : Str).length :=
  (claim9_partial_mask_totality "abcdef".data "*".data 2 3
    (by decide)).2.2.2.2.1 (by decide) (by decide)

end GoScrub
